import Mathlib

set_option maxRecDepth 4000

/-!
Verification of `tools/generate-TorControlCommands.py` (jtorctl).

The script is a one-shot build-time code generator.  It reads a C source
file, locates the `CONTROL_COMMANDS` array initializer with
`re.search(r'control_cmd_def_t CONTROL_COMMANDS\[]\s*=\s*\x7b\n*([^\x7d]+)\x7d', text, re.MULTILINE)`,
scans the captured (and right-stripped) group with
`re.findall(r'.*(MULTLINE|OBSOLETE|ONE_LINE)\(([a-zA-Z0-9_]+).*', group)`,
and emits one Java constant declaration per match, preceded by a
provenance header built from `__file__`, all printed at the very end.

Text is modelled as `List Char`.  The regular expressions contain no
flags affecting them except `re.MULTILINE` on the search (irrelevant:
the pattern has no `^`/`$`), so `.` never matches a newline; backtracking
in both patterns resolves deterministically, and the definitions below
implement that deterministic semantics:

* the findall pattern starts with greedy `.*` (which cannot cross a
  newline) and ends with `.*` (which extends the match to the end of the
  line), so the scan yields at most one match per line, namely the
  rightmost position on the line where `TAG(ident` matches; and
* in the search pattern, `\s*` runs are maximal (`=` and `\x7b` are not
  whitespace), and `\n*([^\x7d]+)\x7d` captures the text between the brace
  and the first `\x7d`, minus leading newlines except that one newline is
  kept when the text would otherwise be empty (`[^\x7d]+` needs a char).
-/

/-- The character class `[a-zA-Z0-9_]` of the findall pattern. -/
def isIdentChar (c : Char) : Bool :=
  c.isAlpha || c.isDigit || c == '_'

/-- Python regex `\s` and `str.rstrip` whitespace (ASCII part). -/
def isPySpace (c : Char) : Bool :=
  c == ' ' || c == '\t' || c == '\n' || c == '\r' || c == '\x0b' || c == '\x0c'

/-- The three category tags of the findall alternation. -/
inductive CmdType where
  | MULTLINE
  | OBSOLETE
  | ONE_LINE
deriving DecidableEq, Repr

/-- The literal text of each category tag. -/
def tagStr : CmdType → List Char
  | .MULTLINE => "MULTLINE".data
  | .OBSOLETE => "OBSOLETE".data
  | .ONE_LINE => "ONE_LINE".data

/-- One attempt of `TAG\(([a-zA-Z0-9_]+)` at the head of `l`: the tag
    literal, an opening parenthesis, then the greedy (maximal) nonempty
    run of identifier characters, which is the captured group. -/
def tryTag (t : CmdType) (l : List Char) : Option (CmdType × List Char) :=
  if (tagStr t).isPrefixOf l then
    match l.drop (tagStr t).length with
    | '(' :: r =>
      let cap := r.takeWhile isIdentChar
      if cap = [] then none else some (t, cap)
    | _ => none
  else none

/-- The alternation `(MULTLINE|OBSOLETE|ONE_LINE)\(([a-zA-Z0-9_]+)` tried
    at the head of `l`, alternatives in the pattern's order (at most one
    can match anyway: the tags pairwise differ within two characters). -/
def matchEntryAt (l : List Char) : Option (CmdType × List Char) :=
  match tryTag .MULTLINE l with
  | some r => some r
  | none =>
    match tryTag .OBSOLETE l with
    | some r => some r
    | none => tryTag .ONE_LINE l

/-- The findall match on a single line: the greedy leading `.*`
    backtracks from the end of the line, so the rightmost position where
    `matchEntryAt` succeeds wins; `none` when no position matches. -/
def lineExtract : List Char → Option (CmdType × List Char)
  | [] => none
  | c :: rest =>
    match lineExtract rest with
    | some r => some r
    | none => matchEntryAt (c :: rest)

/-- Split on newline characters, mirroring the line structure that `.`
    (which cannot match `\n`) imposes on the findall scan. -/
def splitNl : List Char → List (List Char)
  | [] => [[]]
  | c :: rest =>
    if c = '\n' then [] :: splitNl rest
    else
      match splitNl rest with
      | [] => [[c]]
      | l :: ls => (c :: l) :: ls

/-- `str.upper` on the ASCII identifier characters the pattern captures. -/
def pyUpper (l : List Char) : List Char := l.map Char.toUpper

/-- The `command_types` list accumulated by the `for` loop over
    `re.findall`: each match contributes `[type, command.upper()]`, in
    match order. -/
def entriesOfLines (ls : List (List Char)) : List (CmdType × List Char) :=
  (ls.filterMap lineExtract).map (fun e => (e.1, pyUpper e.2))

/-- All findall matches of the captured table text, in textual order. -/
def findallCommands (g : List Char) : List (CmdType × List Char) :=
  entriesOfLines (splitNl g)

/-- `str.rstrip()` (ASCII whitespace). -/
def rstrip (l : List Char) : List Char :=
  (l.reverse.dropWhile isPySpace).reverse

/-- The literal part `control_cmd_def_t CONTROL_COMMANDS\[]` of the
    search pattern. -/
def tableAnchor : List Char := "control_cmd_def_t CONTROL_COMMANDS[]".data

/-- One attempt of the whole search pattern at the head of `l`,
    returning group 1 on success.  `\s*` runs are maximal, then `=`,
    `\s*`, `\x7b` are required; `\n*([^\x7d]+)\x7d` captures up to the first
    closing brace as described in the header comment. -/
def matchTableAt (l : List Char) : Option (List Char) :=
  if tableAnchor.isPrefixOf l then
    match (l.drop tableAnchor.length).dropWhile isPySpace with
    | '=' :: r2 =>
      match r2.dropWhile isPySpace with
      | '\x7b' :: r4 =>
        let c := r4.takeWhile (fun ch => ch != '\x7d')
        if c.length = r4.length then none
        else if c = [] then none
        else some (c.drop (min (c.takeWhile (fun ch => ch == '\n')).length (c.length - 1)))
      | _ => none
    | _ => none
  else none

/-- `re.search`: the leftmost position at which the pattern matches. -/
def reSearchTable : List Char → Option (List Char)
  | [] => matchTableAt []
  | c :: rest =>
    match matchTableAt (c :: rest) with
    | some g => some g
    | none => reSearchTable rest

/-- The extraction half of the script: locate the table, right-strip the
    captured group, run the findall loop.  `none` is the case in which
    `re.search` returns `None`. -/
def extractEntries (text : List Char) : Option (List (CmdType × List Char)) :=
  (reSearchTable text).map (fun g => findallCommands (rstrip g))

/-- The initial `output` value: `"\n    // generated by %s\n" % __file__`. -/
def headerOut (scriptFile : List Char) : List Char :=
  '\n' :: ("    // generated by ".data ++ scriptFile ++ ['\n'])

/-- The emitter loop body for one entry: `@Deprecated` line when the type
    is `OBSOLETE`, then the declaration, with a `+` inside the string
    value exactly when the type is `MULTLINE`. -/
def emitEntry (e : CmdType × List Char) : List Char :=
  (if e.1 = .OBSOLETE then "    @Deprecated\n".data else []) ++
  (if e.1 = .MULTLINE then
    "    public static final String ".data ++ e.2 ++ " = \"+".data ++ e.2 ++ "\";\n".data
  else
    "    public static final String ".data ++ e.2 ++ " = \"".data ++ e.2 ++ "\";\n".data)

/-- The exceptions relevant to a run of the script.  `ioError` models
    `open` failing; `attributeError` models `m.group(1)` with `m = None`.
    `extractionError` is modelled from the spec: the spec's error
    taxonomy names a distinct `ExtractionError`, which the script itself
    never defines nor raises. -/
inductive PyExc where
  | ioError
  | attributeError
  | extractionError
deriving DecidableEq, Repr

/-- Observable outcome of one run: the uncaught exception, if any, and
    everything written to standard output. -/
structure PyResult where
  exc : Option PyExc
  stdout : List Char
deriving DecidableEq, Repr

/-- The whole script, as a function of `__file__` and of the contents of
    `../tor/src/feature/control/control_cmd.c` (`none` = unreadable).
    The single `print(output)` at the end appends a newline; it is the
    only write, and an exception raised earlier propagates before it. -/
def pyMain (scriptFile : List Char) (file : Option (List Char)) : PyResult :=
  match file with
  | none => { exc := some .ioError, stdout := [] }
  | some text =>
    match reSearchTable text with
    | none => { exc := some .attributeError, stdout := [] }
    | some g =>
      let entries := findallCommands (rstrip g)
      { exc := none
        stdout := headerOut scriptFile ++ (entries.map emitEntry).flatten ++ ['\n'] }

/-! ### Helper lemmas about the findall scan -/

/-- No entry pattern can match starting at an opening parenthesis. -/
theorem matchEntryAt_paren (xs : List Char) : matchEntryAt ('(' :: xs) = none := rfl

/-- If no suffix of a line matches the entry pattern, the line yields no
    findall match. -/
theorem lineExtract_eq_none (l : List Char)
    (h : ∀ s, s <:+ l → matchEntryAt s = none) : lineExtract l = none := by
  induction l with
  | nil => rfl
  | cons c rest ih =>
    have h1 : lineExtract rest = none :=
      ih (fun s hs => h s (hs.trans (List.suffix_cons c rest)))
    simp [lineExtract, h1, h (c :: rest) List.suffix_rfl]

/-- If the entry pattern matches at the head of the line and at no
    strictly later position, the findall match of the line is that one. -/
theorem lineExtract_eq_some (l : List Char) (r : CmdType × List Char)
    (hm : matchEntryAt l = some r)
    (h : ∀ s, s <:+ l → s ≠ l → matchEntryAt s = none) :
    lineExtract l = some r := by
  cases l with
  | nil => simp [matchEntryAt, tryTag, tagStr] at hm
  | cons c rest =>
    have h1 : lineExtract rest = none := by
      refine lineExtract_eq_none rest (fun s hs => ?_)
      refine h s (hs.trans (List.suffix_cons c rest)) (fun he => ?_)
      have := hs.length_le
      simp [he] at this
    simp [lineExtract, h1, hm]

/-- A findall match of a line survives prepending text to the line (the
    scan prefers the rightmost match). -/
theorem lineExtract_append_some (pre l : List Char) (r : CmdType × List Char)
    (h : lineExtract l = some r) : lineExtract (pre ++ l) = some r := by
  induction pre with
  | nil => simpa using h
  | cons c pre ih => simp [lineExtract, ih]

/-- A suffix of `a ++ b` is a suffix of `b`, or a nonempty suffix of `a`
    followed by all of `b`. -/
theorem suffix_append_cases {α : Type} (s a b : List α) (h : s <:+ a ++ b) :
    s <:+ b ∨ ∃ d, d <:+ a ∧ d ≠ [] ∧ s = d ++ b := by
  induction a with
  | nil => exact Or.inl (by simpa using h)
  | cons c a ih =>
    rw [List.cons_append, List.suffix_cons_iff] at h
    cases h with
    | inl he =>
      exact Or.inr ⟨c :: a, List.suffix_rfl, by simp, by simpa using he⟩
    | inr hs =>
      cases ih hs with
      | inl h2 => exact Or.inl h2
      | inr h2 =>
        obtain ⟨d, h3, h4, h5⟩ := h2
        exact Or.inr ⟨d, h3.trans (List.suffix_cons c a), h4, h5⟩

/-- A tag is never recognized at the head of a strict suffix of
    a tag followed by an opening parenthesis: all three alternatives
    mismatch within the first two characters, and no tag contains `(`. -/
theorem matchEntryAt_tagSuffix (t : CmdType) (d : List Char) (xs : List Char)
    (hd : d <:+ tagStr t) (hproper : d ≠ tagStr t) :
    matchEntryAt (d ++ '(' :: xs) = none := by
  cases t with
  | MULTLINE =>
    rw [show tagStr .MULTLINE = ['M', 'U', 'L', 'T', 'L', 'I', 'N', 'E'] from rfl] at hd hproper
    simp only [List.suffix_cons_iff, List.suffix_nil] at hd
    rcases hd with rfl | rfl | rfl | rfl | rfl | rfl | rfl | rfl | rfl
    · exact absurd rfl hproper
    all_goals rfl
  | OBSOLETE =>
    rw [show tagStr .OBSOLETE = ['O', 'B', 'S', 'O', 'L', 'E', 'T', 'E'] from rfl] at hd hproper
    simp only [List.suffix_cons_iff, List.suffix_nil] at hd
    rcases hd with rfl | rfl | rfl | rfl | rfl | rfl | rfl | rfl | rfl
    · exact absurd rfl hproper
    all_goals rfl
  | ONE_LINE =>
    rw [show tagStr .ONE_LINE = ['O', 'N', 'E', '_', 'L', 'I', 'N', 'E'] from rfl] at hd hproper
    simp only [List.suffix_cons_iff, List.suffix_nil] at hd
    rcases hd with rfl | rfl | rfl | rfl | rfl | rfl | rfl | rfl | rfl
    · exact absurd rfl hproper
    all_goals rfl

/-- An attempt of a tag at its own literal text succeeds and captures the
    maximal identifier run after the parenthesis. -/
theorem tryTag_self (t : CmdType) (r : List Char) :
    tryTag t (tagStr t ++ ('(' :: r)) =
      (if r.takeWhile isIdentChar = [] then none
       else some (t, r.takeWhile isIdentChar)) := by
  have hp : (tagStr t).isPrefixOf (tagStr t ++ ('(' :: r)) = true := by
    rw [List.isPrefixOf_iff_prefix]
    exact List.prefix_append _ _
  simp [tryTag, hp, List.drop_left]

/-- An attempt of one tag at the literal text of a different tag fails. -/
theorem tryTag_ne (t t2 : CmdType) (h : t ≠ t2) (x : List Char) :
    tryTag t (tagStr t2 ++ x) = none := by
  cases t <;> cases t2 <;> first | exact absurd rfl h | rfl

/-- The alternation at a tag's own literal text captures the maximal
    identifier run. -/
theorem matchEntryAt_self (t : CmdType) (r : List Char)
    (h : r.takeWhile isIdentChar ≠ []) :
    matchEntryAt (tagStr t ++ ('(' :: r)) = some (t, r.takeWhile isIdentChar) := by
  cases t with
  | MULTLINE => simp [matchEntryAt, tryTag_self, h]
  | OBSOLETE =>
    simp [matchEntryAt, tryTag_ne .MULTLINE .OBSOLETE (by simp), tryTag_self, h]
  | ONE_LINE =>
    simp [matchEntryAt, tryTag_ne .MULTLINE .ONE_LINE (by simp),
      tryTag_ne .OBSOLETE .ONE_LINE (by simp), tryTag_self, h]

/-- The maximal identifier run at `name ++ rest` is exactly `name` when
    `name` consists of identifier characters and `rest` does not start
    with one. -/
theorem takeWhile_ident_exact (name rest : List Char)
    (hid : ∀ c ∈ name, isIdentChar c = true)
    (hrest : ∀ c, rest.head? = some c → isIdentChar c = false) :
    (name ++ rest).takeWhile isIdentChar = name := by
  rw [List.takeWhile_append_of_pos hid]
  cases rest with
  | nil => simp
  | cons c r => simp [List.takeWhile_cons, hrest c rfl]

/-! ### Claim C9 -/

/-- C9: for every recognized entry line, the captured identifier is
    exactly the maximal run of `[a-zA-Z0-9_]` characters immediately
    following the category tag's opening parenthesis; the text on the
    line after that run (further arguments, commas, the closing
    parenthesis — anything in which the entry pattern does not occur
    again) is ignored and does not affect the extracted name, and
    neither does any text before the tag. -/
theorem C9_capture_maximal_run (pre : List Char) (t : CmdType) (name rest : List Char)
    (hname : name ≠ []) (hid : ∀ c ∈ name, isIdentChar c = true)
    (hrest : rest.head?.all (fun c => !(isIdentChar c)) = true)
    (hafter : ∀ s ∈ ('(' :: (name ++ rest)).tails, matchEntryAt s = none) :
    lineExtract (pre ++ (tagStr t ++ '(' :: (name ++ rest))) = some (t, name) := by
  have hrest2 : ∀ c, rest.head? = some c → isIdentChar c = false := by
    intro c hc
    rw [hc] at hrest
    simpa using hrest
  have htw : (name ++ rest).takeWhile isIdentChar = name :=
    takeWhile_ident_exact name rest hid hrest2
  have hm : matchEntryAt (tagStr t ++ ('(' :: (name ++ rest))) = some (t, name) := by
    rw [matchEntryAt_self t (name ++ rest) (by rw [htw]; exact hname), htw]
  refine lineExtract_append_some pre _ _ (lineExtract_eq_some _ _ hm ?_)
  intro s hs hne
  rcases suffix_append_cases s (tagStr t) ('(' :: (name ++ rest)) hs with h1 | ⟨d, hd, hdne, rfl⟩
  · exact hafter s ((List.mem_tails _ _).2 h1)
  · refine matchEntryAt_tagSuffix t d (name ++ rest) hd (fun hdt => ?_)
    exact hne (by rw [hdt])

/-- Witness for C9 at a concrete line
    `  ONE_LINE(SETCONF, 0),`: the captured name is `SETCONF`. -/
theorem C9_witness :
    lineExtract ("  ".data ++ (tagStr .ONE_LINE ++ '(' :: ("SETCONF".data ++ ", 0),".data))) =
      some (.ONE_LINE, "SETCONF".data) :=
  C9_capture_maximal_run "  ".data .ONE_LINE "SETCONF".data ", 0),".data
    (by decide) (by decide) (by decide) (by decide)

/-! ### General pipeline lemmas -/

/-- When the search succeeds, the run prints the header followed by the
    emitted declarations of every extracted entry, in order, and raises
    nothing. -/
theorem pyMain_found (p text g : List Char) (h : reSearchTable text = some g) :
    pyMain p (some text) =
      { exc := none,
        stdout := headerOut p ++
          ((findallCommands (rstrip g)).map emitEntry).flatten ++ ['\n'] } := by
  simp [pyMain, h]

/-! ### Concrete inputs used by the claims -/

/-- The spec scenario: a table with `ONE_LINE(GETINFO)`,
    `MULTLINE(GETCONF)`, `OBSOLETE(POSTDESCRIPTOR)`, in that order. -/
def scenarioInput : List Char :=
  ("static const control_cmd_def_t CONTROL_COMMANDS[] =\n\x7b\n" ++
   "  ONE_LINE(GETINFO),\n  MULTLINE(GETCONF),\n  OBSOLETE(POSTDESCRIPTOR),\n\x7d;\n").data

/-- Group 1 captured by the search on `scenarioInput`. -/
def scenarioGroup : List Char :=
  "  ONE_LINE(GETINFO),\n  MULTLINE(GETCONF),\n  OBSOLETE(POSTDESCRIPTOR),\n".data

/-- The declaration lines the scenario is expected to produce. -/
def scenarioBody : List Char :=
  ("    public static final String GETINFO = \"GETINFO\";\n" ++
   "    public static final String GETCONF = \"+GETCONF\";\n" ++
   "    @Deprecated\n" ++
   "    public static final String POSTDESCRIPTOR = \"POSTDESCRIPTOR\";\n").data

/-- A source text in which the command table does not occur. -/
def noTableInput : List Char := "static int foo = 7;\n".data

/-- A table whose identifiers are lower-case in the source. -/
def lowercaseInput : List Char :=
  "control_cmd_def_t CONTROL_COMMANDS[]=\x7b ONE_LINE(getinfo) \x7d".data

/-- A located table containing no recognized entry. -/
def emptyTableInput : List Char :=
  "control_cmd_def_t CONTROL_COMMANDS[] = \x7b\n  NOPE(GETINFO),\n  777,\n\x7d".data

/-- A table in which the same identifier occurs under two tags. -/
def dupInput : List Char :=
  "control_cmd_def_t CONTROL_COMMANDS[] = \x7b\n  ONE_LINE(GETINFO),\n  MULTLINE(GETINFO),\n\x7d".data

/-! ### Claim C1 -/

/-- C1: an OBSOLETE entry produces the `    @Deprecated` line immediately
    preceding a constant declaration whose string value is the bare
    upper-cased name; a MULTLINE entry produces a declaration whose value
    is the name prefixed with `+`; a ONE_LINE entry produces a bare,
    unprefixed declaration; and on the scenario input
    `ONE_LINE(GETINFO)`, `MULTLINE(GETCONF)`, `OBSOLETE(POSTDESCRIPTOR)`
    the output is, in that order, a `GETINFO` constant valued
    `"GETINFO"`, a `GETCONF` constant valued `"+GETCONF"`, and a
    deprecation marker followed by a `POSTDESCRIPTOR` constant valued
    `"POSTDESCRIPTOR"`. -/
theorem C1_category_mapping :
    (∀ name, emitEntry (.OBSOLETE, name) =
      "    @Deprecated\n".data ++
        ("    public static final String ".data ++ name ++ " = \"".data ++
          name ++ "\";\n".data)) ∧
    (∀ name, emitEntry (.MULTLINE, name) =
      "    public static final String ".data ++ name ++ " = \"+".data ++
        name ++ "\";\n".data) ∧
    (∀ name, emitEntry (.ONE_LINE, name) =
      "    public static final String ".data ++ name ++ " = \"".data ++
        name ++ "\";\n".data) ∧
    (∀ p, pyMain p (some scenarioInput) =
      { exc := none, stdout := headerOut p ++ scenarioBody ++ ['\n'] }) := by
  refine ⟨fun name => by simp [emitEntry], fun name => by simp [emitEntry],
    fun name => by simp [emitEntry], fun p => ?_⟩
  rw [pyMain_found p scenarioInput scenarioGroup (by decide)]
  rw [show ((findallCommands (rstrip scenarioGroup)).map emitEntry).flatten = scenarioBody
    from by decide]

/-! ### Claim C2 -/

/-- C2: when extraction succeeds, the emitted output is exactly the
    header followed by the per-entry emissions of the extracted entries
    in their extraction order (nothing reordered, dropped or inserted by
    the emitter), and extraction itself is positional: the entries of a
    concatenation of line blocks are the entries of the blocks,
    concatenated in the same order. -/
theorem C2_order_preservation :
    (∀ p text es, extractEntries text = some es →
      pyMain p (some text) =
        { exc := none,
          stdout := headerOut p ++ (es.map emitEntry).flatten ++ ['\n'] }) ∧
    (∀ ls1 ls2, entriesOfLines (ls1 ++ ls2) =
      entriesOfLines ls1 ++ entriesOfLines ls2) := by
  constructor
  · intro p text es h
    unfold extractEntries at h
    cases hg : reSearchTable text with
    | none => rw [hg] at h; simp at h
    | some g =>
      rw [hg] at h
      simp only [Option.map_some', Option.some.injEq] at h
      subst h
      exact pyMain_found p text g hg
  · intro ls1 ls2
    simp [entriesOfLines, List.filterMap_append]

/-- Witness for C2 on the scenario input. -/
theorem C2_witness :
    pyMain "gen.py".data (some scenarioInput) =
      { exc := none,
        stdout := headerOut "gen.py".data ++
          (([(CmdType.ONE_LINE, "GETINFO".data), (CmdType.MULTLINE, "GETCONF".data),
              (CmdType.OBSOLETE, "POSTDESCRIPTOR".data)].map emitEntry)).flatten ++
          ['\n'] } :=
  C2_order_preservation.1 "gen.py".data scenarioInput _ (by decide)

/-! ### Claim C3 -/

/-- C3 counterexample: on a source text with no occurrence of the table,
    the run fails with `AttributeError` (from `m.group(1)` on `None`),
    not with the spec's distinct `ExtractionError`; it does produce no
    output. -/
theorem C3_counterexample :
    (pyMain "gen.py".data (some noTableInput)).exc = some PyExc.attributeError ∧
    ¬((pyMain "gen.py".data (some noTableInput)).exc = some PyExc.extractionError) ∧
    (pyMain "gen.py".data (some noTableInput)).stdout = [] := by
  decide

/-- C3 amended: for every source text in which the search pattern never
    matches, the run fails — with the generic `AttributeError` crash from
    `m.group(1)`, not a distinct `ExtractionError` — and writes nothing. -/
theorem C3_amended_generic_crash (p text : List Char)
    (h : reSearchTable text = none) :
    pyMain p (some text) = { exc := some PyExc.attributeError, stdout := [] } := by
  simp [pyMain, h]

/-- Witness for the amended C3 at a concrete table-free input. -/
theorem C3_witness :
    pyMain "gen.py".data (some "int main;\n".data) =
      { exc := some PyExc.attributeError, stdout := [] } :=
  C3_amended_generic_crash "gen.py".data "int main;\n".data (by decide)

/-! ### Claim C4 -/

/-- C4: every extracted entry's name is the upper-casing of the raw
    identifier captured on some line of the table, whatever its input
    casing; and the emitted declaration places that very name both in the
    constant identifier slot and inside the string value (prefixed by `+`
    exactly for MULTLINE). -/
theorem C4_upper_roundtrip :
    (∀ text es, extractEntries text = some es → ∀ e ∈ es,
      ∃ g line raw, reSearchTable text = some g ∧
        line ∈ splitNl (rstrip g) ∧
        lineExtract line = some (e.1, raw) ∧ e.2 = pyUpper raw) ∧
    (∀ t x, emitEntry (t, x) =
      (if t = .OBSOLETE then "    @Deprecated\n".data else []) ++
        ("    public static final String ".data ++ x ++ " = \"".data ++
          (if t = .MULTLINE then ['+'] else []) ++ x ++ "\";\n".data)) := by
  constructor
  · intro text es h e he
    unfold extractEntries at h
    cases hg : reSearchTable text with
    | none => rw [hg] at h; simp at h
    | some g =>
      rw [hg] at h
      simp only [Option.map_some', Option.some.injEq] at h
      subst h
      unfold findallCommands entriesOfLines at he
      obtain ⟨x, hx, hfe⟩ := List.mem_map.1 he
      obtain ⟨line, hline, hlx⟩ := List.mem_filterMap.1 hx
      subst hfe
      exact ⟨g, line, x.2, rfl, hline, by simpa using hlx, rfl⟩
  · intro t x
    have hplus : (" = \"+" : String).data = (" = \"" : String).data ++ ['+'] := rfl
    cases t <;> simp [emitEntry, hplus, List.append_assoc]

/-- Witness for C4: lower-case `getinfo` in the source is extracted as
    the upper-casing of its raw capture. -/
theorem C4_witness :
    ∃ g line raw, reSearchTable lowercaseInput = some g ∧
      line ∈ splitNl (rstrip g) ∧
      lineExtract line = some (CmdType.ONE_LINE, raw) ∧
      ("GETINFO".data : List Char) = pyUpper raw :=
  C4_upper_roundtrip.1 lowercaseInput [(CmdType.ONE_LINE, "GETINFO".data)] (by decide)
    (CmdType.ONE_LINE, "GETINFO".data) (by decide)

/-! ### Claim C5 -/

/-- C5: inside a located table, a line on which the entry pattern does
    not match is silently skipped (removing or inserting such a line does
    not change the extracted entries), and a located table with zero
    recognized entries yields header-only output and no error. -/
theorem C5_permissive :
    (∀ ls1 l ls2, lineExtract l = none →
      entriesOfLines (ls1 ++ l :: ls2) = entriesOfLines (ls1 ++ ls2)) ∧
    (∀ p text g, reSearchTable text = some g →
      findallCommands (rstrip g) = [] →
      pyMain p (some text) =
        { exc := none, stdout := headerOut p ++ ['\n'] }) := by
  constructor
  · intro ls1 l ls2 h
    simp [entriesOfLines, List.filterMap_append, List.filterMap_cons, h]
  · intro p text g hg he
    rw [pyMain_found p text g hg, he]
    simp

/-- Witness for C5: an unrecognized `NOPE(...)` line is skipped, and an
    entry-free table produces exactly the header. -/
theorem C5_witness :
    entriesOfLines (["  ONE_LINE(GETINFO),".data] ++ "  NOPE(GETINFO),".data :: []) =
        entriesOfLines (["  ONE_LINE(GETINFO),".data] ++ []) ∧
    pyMain "gen.py".data (some emptyTableInput) =
      { exc := none, stdout := headerOut "gen.py".data ++ ['\n'] } :=
  ⟨C5_permissive.1 ["  ONE_LINE(GETINFO),".data] "  NOPE(GETINFO),".data [] (by decide),
   C5_permissive.2 "gen.py".data emptyTableInput "  NOPE(GETINFO),\n  777,\n".data
     (by decide) (by decide)⟩

/-! ### Claim C6 -/

/-- C6: occurrences of the same identifier under several entries are all
    kept: emission is one declaration block per entry with no
    deduplication, and on a table containing `GETINFO` under two
    different tags the extractor keeps both occurrences and the output
    contains both declaration blocks. -/
theorem C6_duplicates_kept :
    (∀ es : List (CmdType × List Char), (es.map emitEntry).length = es.length) ∧
    (extractEntries dupInput =
      some [(CmdType.ONE_LINE, "GETINFO".data), (CmdType.MULTLINE, "GETINFO".data)]) ∧
    (∀ p, pyMain p (some dupInput) =
      { exc := none,
        stdout := headerOut p ++
          (emitEntry (CmdType.ONE_LINE, "GETINFO".data) ++
            emitEntry (CmdType.MULTLINE, "GETINFO".data)) ++ ['\n'] }) := by
  refine ⟨fun es => by simp, by decide, fun p => ?_⟩
  rw [pyMain_found p dupInput "  ONE_LINE(GETINFO),\n  MULTLINE(GETINFO),\n".data (by decide)]
  rw [show ((findallCommands
        (rstrip "  ONE_LINE(GETINFO),\n  MULTLINE(GETINFO),\n".data)).map emitEntry).flatten =
      emitEntry (CmdType.ONE_LINE, "GETINFO".data) ++
        emitEntry (CmdType.MULTLINE, "GETINFO".data)
    from by decide]

/-! ### Claim C7 -/

/-- C7: emission is all-or-nothing.  Whenever the run ends in an
    exception (unreadable file or unlocated table), nothing at all is
    written; conversely any nonempty output implies the run succeeded and
    extraction had fully succeeded first. -/
theorem C7_all_or_nothing (p : List Char) (file : Option (List Char)) :
    ((pyMain p file).exc.isSome → (pyMain p file).stdout = []) ∧
    ((pyMain p file).stdout ≠ [] → (pyMain p file).exc = none ∧
      ∃ text g, file = some text ∧ reSearchTable text = some g) := by
  cases file with
  | none => simp [pyMain]
  | some text =>
    cases hg : reSearchTable text with
    | none => simp [pyMain, hg]
    | some g =>
      rw [pyMain_found p text g hg]
      exact ⟨by simp, fun _ => ⟨rfl, text, g, rfl, hg⟩⟩

/-- Witness for C7: an unreadable input file yields empty output. -/
theorem C7_witness : (pyMain "gen.py".data none).stdout = [] :=
  (C7_all_or_nothing "gen.py".data none).1 (by decide)

/-! ### Claim C8 -/

/-- C8: the tool is deterministic: two runs on byte-identical input file
    contents (the script invoked by the same path both times) produce
    byte-identical observable results, output text included. -/
theorem C8_deterministic (p text1 text2 : List Char) (h : text1 = text2) :
    pyMain p (some text1) = pyMain p (some text2) := by
  rw [h]

/-- Witness for C8 at a concrete input. -/
theorem C8_witness :
    pyMain "gen.py".data (some scenarioInput) =
      pyMain "gen.py".data (some scenarioInput) :=
  C8_deterministic "gen.py".data scenarioInput scenarioInput rfl

/-! ### Claim C10 -/

/-- C10: the header line embeds the script's own invocation path, so the
    output is a function of the input contents and of that path: two runs
    on the same input with script paths `p1` and `p2` produce outputs
    that share everything except the embedded path (common prefix
    `"\n    // generated by "`, common suffix from the newline after the
    path on), and the outputs are equal exactly when the paths are. -/
theorem C10_header_file_dependence (p1 p2 text g : List Char)
    (hg : reSearchTable text = some g) :
    ((pyMain p1 (some text)).stdout =
      ('\n' :: "    // generated by ".data) ++ p1 ++
        ('\n' :: (((findallCommands (rstrip g)).map emitEntry).flatten ++ ['\n']))) ∧
    ((pyMain p2 (some text)).stdout =
      ('\n' :: "    // generated by ".data) ++ p2 ++
        ('\n' :: (((findallCommands (rstrip g)).map emitEntry).flatten ++ ['\n']))) ∧
    ((pyMain p1 (some text)).stdout = (pyMain p2 (some text)).stdout ↔ p1 = p2) := by
  have hs : ∀ p : List Char, (pyMain p (some text)).stdout =
      ('\n' :: "    // generated by ".data) ++ p ++
        ('\n' :: (((findallCommands (rstrip g)).map emitEntry).flatten ++ ['\n'])) := by
    intro p
    rw [pyMain_found p text g hg]
    simp [headerOut, List.append_assoc]
  refine ⟨hs p1, hs p2, ?_⟩
  rw [hs p1, hs p2]
  constructor
  · intro h
    exact List.append_cancel_left (List.append_cancel_right h)
  · intro h
    rw [h]

/-- Witness for C10 at two concrete script paths. -/
theorem C10_witness :
    ((pyMain "a.py".data (some dupInput)).stdout =
        (pyMain "b.py".data (some dupInput)).stdout) ↔
      ("a.py".data : List Char) = "b.py".data :=
  (C10_header_file_dependence "a.py".data "b.py".data dupInput
    "  ONE_LINE(GETINFO),\n  MULTLINE(GETINFO),\n".data (by decide)).2.2
